import Mathlib

/-!
Shallow embedding of the ExchangeOutpost ABI core (src/rust/src/fin_data.rs and
src/src/lib.rs) for checking the natural-language specification against the code.

Modelling conventions:
* serde_json values are the inductive type Json below; serde_json numbers keep
  the distinction between integer-stored and float-stored numbers (JNum), with
  float payloads idealised as exact rationals.
* HashMap String V is an association list with first-match lookup; inserts
  overwrite in place.
* Result of type T with WithReturnCode of Error is Except RetErr T, where RetErr
  keeps the numeric return code and the formatted message (the serde error text
  interpolated into the Stage A / Stage B messages is not modelled, only the
  fixed message prefix and the code).
* A generic target type T with a DeserializeOwned bound is modelled by its
  decode function dec : Json → Option T (serde_json from_value), and
  serde_json from_str is parsing the text as JSON followed by dec.
* candle.rs is absent from src/: the Candle record and Candle.to_decimal are
  modelled from the spec where indicated.
-/

/-- serde_json number: an integer-stored number (u64 / i64 payloads) or a
float-stored number, whose binary value is idealised as an exact rational. -/
inductive JNum where
  | int (n : Int)
  | float (q : ℚ)
deriving DecidableEq

/-- serde_json::Value. -/
inductive Json where
  | null
  | bool (b : Bool)
  | num (n : JNum)
  | str (s : String)
  | arr (xs : List Json)
  | obj (fields : List (String × Json))

/-- Value::as_str: Some exactly on textual values. -/
def Json.as_str : Json → Option String
  | Json.str s => some s
  | _ => none

/-- HashMap::get on the association-list model: first match wins. -/
def hmGet (m : List (String × α)) (k : String) : Option α :=
  match m with
  | [] => none
  | (k0, v) :: rest => if k0 = k then some v else hmGet rest k

/-- HashMap::insert on the association-list model: overwrite in place, else append. -/
def hmInsert (m : List (String × α)) (k : String) (v : α) : List (String × α) :=
  match m with
  | [] => [(k, v)]
  | (k0, v0) :: rest => if k0 = k then (k, v) :: rest else (k0, v0) :: hmInsert rest k v

/-- WithReturnCode of Error: the numeric return code plus the formatted message. -/
structure RetErr where
  code : Int
  msg : String
deriving DecidableEq

/-- The numeric return code of a failed call, none on success. -/
def errCode : Except RetErr α → Option Int
  | Except.ok _ => none
  | Except.error e => some e.code

/-- Modelled from the spec: the raw OHLC(+volume) candle record (candle.rs is not
under src/; §3 and the glossary describe one OHLC(+volume) observation with
floating-point fields, generic over the field type). -/
structure Candle (α : Type) where
  openPrice : α
  highPrice : α
  lowPrice : α
  closePrice : α
  volume : α
deriving DecidableEq

/-- An arbitrary-precision base-10 fixed-point number: scaled integer plus scale,
the value being mantissa / 10 ^ scale (rust_decimal::Decimal as used here). -/
structure Decimal where
  mantissa : Int
  scale : Nat
deriving DecidableEq

/-- The rational value denoted by a Decimal. -/
def Decimal.toRat (d : Decimal) : ℚ :=
  (d.mantissa : ℚ) / (10 : ℚ) ^ d.scale

/-- Round a rational to the nearest integer, ties away from zero. -/
def roundHalfAway (q : ℚ) : Int :=
  if 0 ≤ q then ⌊q + 1 / 2⌋ else -⌊-q + 1 / 2⌋

/-- Modelled from the spec (§4.3): convert one floating-point field (idealised as
a rational) to an exact base-10 fixed-point value with precision fractional
digits, rounding half away from zero at the precision-th fractional digit. -/
def Decimal.ofRat (x : ℚ) (precision : Nat) : Decimal :=
  ⟨roundHalfAway (x * (10 : ℚ) ^ precision), precision⟩

/-- Modelled from the spec (§4.3): Candle::to_decimal rescales every field of a
floating-point candle at the given precision (candle.rs is not under src/). -/
def Candle.to_decimal (c : Candle ℚ) (precision : Int) : Candle Decimal :=
  ⟨Decimal.ofRat c.openPrice precision.toNat,
   Decimal.ofRat c.highPrice precision.toNat,
   Decimal.ofRat c.lowPrice precision.toNat,
   Decimal.ofRat c.closePrice precision.toNat,
   Decimal.ofRat c.volume precision.toNat⟩

/-- TickersData (fin_data.rs lines 10-16). -/
structure TickersData where
  symbol : String
  exchange : String
  candles : List (Candle ℚ)
  precision : Int

/-- TickersData::get_candles_iter (iterators are modelled as the list they yield). -/
def TickersData.get_candles_iter (t : TickersData) : List (Candle ℚ) :=
  t.candles

/-- TickersData::get_candles. -/
def TickersData.get_candles (t : TickersData) : List (Candle ℚ) :=
  t.candles

/-- TickersData::get_candles_decimal_iter: map to_decimal at this series'
precision over the candles, in order. -/
def TickersData.get_candles_decimal_iter (t : TickersData) : List (Candle Decimal) :=
  t.candles.map (fun c => c.to_decimal t.precision)

/-- TickersData::get_candles_decimal: collect of get_candles_decimal_iter. -/
def TickersData.get_candles_decimal (t : TickersData) : List (Candle Decimal) :=
  t.get_candles_decimal_iter

/-- FunctionArgs (fin_data.rs lines 36-41). -/
structure FunctionArgs where
  tickers_data : List (String × TickersData)
  piped_data : List (String × String)
  call_arguments : List (String × Json)

/-- FunctionArgs::get_labels. -/
def FunctionArgs.get_labels (fa : FunctionArgs) : List String :=
  fa.tickers_data.map Prod.fst

/-- FunctionArgs::get_candles: the candle list for the label, else code 1. -/
def FunctionArgs.get_candles (fa : FunctionArgs) (label : String) :
    Except RetErr (List (Candle ℚ)) :=
  match hmGet fa.tickers_data label with
  | some v => Except.ok v.candles
  | none => Except.error ⟨1, "Symbol " ++ label ++ " not found"⟩

/-- FunctionArgs::get_candles_iter: get_candles then iter. -/
def FunctionArgs.get_candles_iter (fa : FunctionArgs) (label : String) :
    Except RetErr (List (Candle ℚ)) :=
  match fa.get_candles label with
  | Except.ok candles => Except.ok candles
  | Except.error e => Except.error e

/-- FunctionArgs::get_pipe_sources. -/
def FunctionArgs.get_pipe_sources (fa : FunctionArgs) : List String :=
  fa.piped_data.map Prod.fst

/-- FunctionArgs::get_data_from_pipe: the raw text for the source, else code 2. -/
def FunctionArgs.get_data_from_pipe (fa : FunctionArgs) (source : String) :
    Except RetErr String :=
  match hmGet fa.piped_data source with
  | some v => Except.ok v
  | none => Except.error ⟨2, "Source " ++ source ++ " not found"⟩

/-- FunctionArgs::get_ticker: the full record for the label, else code 3. -/
def FunctionArgs.get_ticker (fa : FunctionArgs) (label : String) :
    Except RetErr TickersData :=
  match hmGet fa.tickers_data label with
  | some v => Except.ok v
  | none => Except.error ⟨3, "Ticker " ++ label ++ " not found"⟩

/-- FunctionArgs::get_candles_decimal_iter: get_ticker then the ticker's decimal
iterator (precision taken from the ticker). -/
def FunctionArgs.get_candles_decimal_iter (fa : FunctionArgs) (label : String) :
    Except RetErr (List (Candle Decimal)) :=
  match fa.get_ticker label with
  | Except.ok ticker => Except.ok ticker.get_candles_decimal_iter
  | Except.error e => Except.error e

/-- FunctionArgs::get_candles_decimal: collect of get_candles_decimal_iter. -/
def FunctionArgs.get_candles_decimal (fa : FunctionArgs) (label : String) :
    Except RetErr (List (Candle Decimal)) :=
  match fa.get_candles_decimal_iter label with
  | Except.ok it => Except.ok it
  | Except.error e => Except.error e

/-- FunctionArgs::get_call_arguments. -/
def FunctionArgs.get_call_arguments (fa : FunctionArgs) : List (String × Json) :=
  fa.call_arguments

/-! JSON text parsing, modelling serde_json::from_str: parse the whole text as
one JSON value (surrounded by optional whitespace), then decode it. Unicode
\u escapes in string literals are not modelled; float-stored numbers are kept
as exact rationals rather than binary doubles. -/

/-- JSON whitespace. -/
def isWsChar (c : Char) : Bool :=
  c == ' ' || c == '\t' || c == '\n' || c == '\r'

/-- Drop leading JSON whitespace. -/
def skipWs (cs : List Char) : List Char :=
  cs.dropWhile isWsChar

/-- Backslash escapes inside JSON string literals (without \u). -/
def escChar (c : Char) : Option Char :=
  if c == '"' || c == '\\' || c == '/' then some c
  else if c == 'n' then some '\n'
  else if c == 't' then some '\t'
  else if c == 'r' then some '\r'
  else if c == 'b' then some (Char.ofNat 8)
  else if c == 'f' then some (Char.ofNat 12)
  else none

/-- Parse the body of a JSON string literal, after the opening quote; returns
the decoded characters and the input after the closing quote. -/
def parseStringBody : List Char → Option (List Char × List Char)
  | [] => none
  | '"' :: rest => some ([], rest)
  | '\\' :: c :: rest =>
    (escChar c).bind fun u =>
      (parseStringBody rest).map fun p => (u :: p.1, p.2)
  | c :: rest =>
    if c.toNat < 32 then none
    else (parseStringBody rest).map fun p => (c :: p.1, p.2)

/-- Split off a maximal run of decimal digits. -/
def takeDigits (cs : List Char) : List Char × List Char :=
  (cs.takeWhile Char.isDigit, cs.dropWhile Char.isDigit)

/-- Decimal digits to the natural number they denote. -/
def digitsToNat (ds : List Char) : Nat :=
  ds.foldl (fun acc c => acc * 10 + (c.toNat - 48)) 0

/-- Parse an exponent part after the e marker: optional sign then digits. -/
def parseExpPart (cs : List Char) : Option (Int × List Char) :=
  let signed : Int × List Char :=
    match cs with
    | '+' :: rest => (1, rest)
    | '-' :: rest => (-1, rest)
    | _ => (1, cs)
  let p := takeDigits signed.2
  if p.1.isEmpty then none
  else some (signed.1 * (digitsToNat p.1 : Int), p.2)

/-- Parse a JSON number. serde_json stores it as u64 / i64 when it is written
without fraction or exponent and fits (JNum.int), otherwise as a double
(JNum.float, idealised as the exact rational). -/
def parseNumber (cs : List Char) : Option (JNum × List Char) :=
  let signed : Bool × List Char :=
    match cs with
    | '-' :: rest => (true, rest)
    | _ => (false, cs)
  let neg := signed.1
  let ipp := takeDigits signed.2
  let ip := ipp.1
  if ip.isEmpty then none
  else if decide (1 < ip.length) && ip.headD 'x' == '0' then none
  else
    let fracRes : Option (List Char × List Char) :=
      match ipp.2 with
      | '.' :: cs3 =>
        let fp := takeDigits cs3
        if fp.1.isEmpty then none else some fp
      | _ => some ([], ipp.2)
    match fracRes with
    | none => none
    | some (fd, cs4) =>
      let expRes : Option (Option Int × List Char) :=
        match cs4 with
        | 'e' :: cs5 => (parseExpPart cs5).map fun p => (some p.1, p.2)
        | 'E' :: cs5 => (parseExpPart cs5).map fun p => (some p.1, p.2)
        | _ => some (none, cs4)
      match expRes with
      | none => none
      | some (eo, cs6) =>
        if fd.isEmpty && eo.isNone then
          let n : Int := (if neg then -1 else 1) * (digitsToNat ip : Int)
          if decide (-(2 ^ 63) ≤ n) && decide (n < 2 ^ 64) then some (JNum.int n, cs6)
          else some (JNum.float (n : ℚ), cs6)
        else
          let mag : ℚ := (digitsToNat ip : ℚ) + (digitsToNat fd : ℚ) / (10 : ℚ) ^ fd.length
          let q : ℚ := (if neg then -1 else 1) * mag * (10 : ℚ) ^ (eo.getD 0)
          some (JNum.float q, cs6)

/-- Match an expected literal tail character by character. -/
def expectChars : List Char → List Char → Option (List Char)
  | [], cs => some cs
  | _ :: _, [] => none
  | e :: es, c :: cs => if c == e then expectChars es cs else none

mutual

/-- Parse one JSON value (fuel-indexed recursive descent). -/
def parseValue : Nat → List Char → Option (Json × List Char)
  | 0, _ => none
  | fuel + 1, cs =>
    match skipWs cs with
    | [] => none
    | c :: rest =>
      if c == 'n' then (expectChars ['u', 'l', 'l'] rest).map fun r => (Json.null, r)
      else if c == 't' then (expectChars ['r', 'u', 'e'] rest).map fun r => (Json.bool true, r)
      else if c == 'f' then (expectChars ['a', 'l', 's', 'e'] rest).map fun r => (Json.bool false, r)
      else if c == '"' then (parseStringBody rest).map fun p => (Json.str (String.mk p.1), p.2)
      else if c == '[' then
        match skipWs rest with
        | ']' :: rest2 => some (Json.arr [], rest2)
        | _ => (parseItems fuel rest).map fun p => (Json.arr p.1, p.2)
      else if c == '\x7b' then
        match skipWs rest with
        | '\x7d' :: rest2 => some (Json.obj [], rest2)
        | _ => (parseMembers fuel rest).map fun p => (Json.obj p.1, p.2)
      else if c == '-' || c.isDigit then (parseNumber (c :: rest)).map fun p => (Json.num p.1, p.2)
      else none

/-- Parse the comma-separated items of a non-empty JSON array, up to and
including the closing bracket. -/
def parseItems : Nat → List Char → Option (List Json × List Char)
  | 0, _ => none
  | fuel + 1, cs =>
    match parseValue fuel cs with
    | none => none
    | some (j, rest) =>
      match skipWs rest with
      | ',' :: rest2 => (parseItems fuel rest2).map fun p => (j :: p.1, p.2)
      | ']' :: rest2 => some ([j], rest2)
      | _ => none

/-- Parse the comma-separated members of a non-empty JSON object, up to and
including the closing brace. -/
def parseMembers : Nat → List Char → Option (List (String × Json) × List Char)
  | 0, _ => none
  | fuel + 1, cs =>
    match skipWs cs with
    | '"' :: rest =>
      match parseStringBody rest with
      | none => none
      | some (kcs, rest2) =>
        match skipWs rest2 with
        | ':' :: rest3 =>
          match parseValue fuel rest3 with
          | none => none
          | some (v, rest4) =>
            match skipWs rest4 with
            | ',' :: rest5 => (parseMembers fuel rest5).map fun p => ((String.mk kcs, v) :: p.1, p.2)
            | '\x7d' :: rest5 => some ([(String.mk kcs, v)], rest5)
            | _ => none
        | _ => none
    | _ => none

end

/-- Parse a whole string as one JSON value (trailing whitespace allowed, nothing
else), as serde_json::from_str does before decoding. -/
def parseJson (s : String) : Option Json :=
  match parseValue (s.length + 1) s.data with
  | some (j, rest) => if (skipWs rest).isEmpty then some j else none
  | none => none

/-- serde_json::from_str::<T>: parse the text as JSON, then decode as T. -/
def from_str (dec : Json → Option T) (s : String) : Option T :=
  (parseJson s).bind dec

/-- FunctionArgs::get_call_argument::<T> (fin_data.rs lines 118-158), with the
generic DeserializeOwned type T given by its from_value decoder dec. Stage A is
dec on the stored value (code 5 on failure); Stage B reparses the text of a
textual value (its code-6 error is built in the source and then discarded:
both failure paths return the Stage A error e). -/
def FunctionArgs.get_call_argument (fa : FunctionArgs) (dec : Json → Option T)
    (key : String) : Except RetErr T :=
  match hmGet fa.call_arguments key with
  | none => Except.error ⟨4, "Call argument " ++ key ++ " not found"⟩
  | some arg =>
    match dec arg with
    | some value => Except.ok value
    | none =>
      let e : RetErr := ⟨5, "Failed to parse call argument " ++ key⟩
      match arg.as_str with
      | some arg_str =>
        match from_str dec arg_str with
        | some value => Except.ok value
        | none => Except.error e
      | none => Except.error e

/-! Concrete decoders (serde_json::from_value for the types the tests use). -/

/-- from_value for String: only a JSON string decodes. -/
def decString : Json → Option String
  | Json.str s => some s
  | _ => none

/-- from_value for bool: only a JSON boolean decodes. -/
def decBool : Json → Option Bool
  | Json.bool b => some b
  | _ => none

/-- from_value for i32: an integer-stored number in i32 range. -/
def decI32 : Json → Option Int
  | Json.num (JNum.int n) => if -(2 ^ 31) ≤ n ∧ n < 2 ^ 31 then some n else none
  | _ => none

/-- from_value for f64: any JSON number decodes. -/
def decF64 : Json → Option ℚ
  | Json.num (JNum.int n) => some (n : ℚ)
  | Json.num (JNum.float q) => some q
  | _ => none

/-- from_value for Vec of T: a JSON array, decoded elementwise. -/
def decVec (dec : Json → Option α) : Json → Option (List α)
  | Json.arr xs => xs.mapM dec
  | _ => none

/-- from_value for serde_json::Value: always succeeds with the value itself. -/
def decValue : Json → Option Json :=
  fun j => some j

/-- from_value for Option of T: null decodes to none, anything else as T. -/
def decOption (dec : Json → Option α) : Json → Option (Option α)
  | Json.null => some none
  | j => (dec j).map some

/-! Deserialization of the inbound payload (FromBytesOwned for FunctionArgs,
fin_data.rs lines 43-47, via serde_json::from_slice on the derived
Deserialize impls). A derived struct impl reads a JSON object, matches fields
by name, ignores unknown fields, rejects duplicate fields, and fails when a
field is missing (no serde default attribute is present on any field). -/

/-- Decode every value of a JSON object into a map (derived Deserialize for
HashMap: entries are inserted in order, later duplicates overwrite). -/
def decodeMapEntries (dec : Json → Option α) :
    List (String × Json) → List (String × α) → Option (List (String × α))
  | [], acc => some acc
  | (k, v) :: rest, acc =>
    (dec v).bind fun a => decodeMapEntries dec rest (hmInsert acc k a)

/-- Derived Deserialize for HashMap String T: a JSON object whose values all
decode as T. -/
def decodeMap (dec : Json → Option α) : Json → Option (List (String × α))
  | Json.obj fields => decodeMapEntries dec fields []
  | _ => none

/-- Modelled from the spec: field loop of the derived Deserialize for the
OHLC(+volume) candle record (candle.rs is not under src/). -/
def decodeCandleFields : List (String × Json) → Option ℚ → Option ℚ → Option ℚ →
    Option ℚ → Option ℚ → Option (Candle ℚ)
  | [], some o, some h, some l, some c, some v => some ⟨o, h, l, c, v⟩
  | [], _, _, _, _, _ => none
  | (k, j) :: rest, o, h, l, c, v =>
    if k = "open" then
      match o with
      | some _ => none
      | none => (decF64 j).bind fun x => decodeCandleFields rest (some x) h l c v
    else if k = "high" then
      match h with
      | some _ => none
      | none => (decF64 j).bind fun x => decodeCandleFields rest o (some x) l c v
    else if k = "low" then
      match l with
      | some _ => none
      | none => (decF64 j).bind fun x => decodeCandleFields rest o h (some x) c v
    else if k = "close" then
      match c with
      | some _ => none
      | none => (decF64 j).bind fun x => decodeCandleFields rest o h l (some x) v
    else if k = "volume" then
      match v with
      | some _ => none
      | none => (decF64 j).bind fun x => decodeCandleFields rest o h l c (some x)
    else decodeCandleFields rest o h l c v

/-- Modelled from the spec: derived Deserialize for Candle of f64. -/
def decodeCandle : Json → Option (Candle ℚ)
  | Json.obj fields => decodeCandleFields fields none none none none none
  | _ => none

/-- Field loop of the derived Deserialize for TickersData. -/
def decodeTickersDataFields : List (String × Json) → Option String → Option String →
    Option (List (Candle ℚ)) → Option Int → Option TickersData
  | [], some s, some e, some c, some p => some ⟨s, e, c, p⟩
  | [], _, _, _, _ => none
  | (k, j) :: rest, s, e, c, p =>
    if k = "symbol" then
      match s with
      | some _ => none
      | none => (decString j).bind fun x => decodeTickersDataFields rest (some x) e c p
    else if k = "exchange" then
      match e with
      | some _ => none
      | none => (decString j).bind fun x => decodeTickersDataFields rest s (some x) c p
    else if k = "candles" then
      match c with
      | some _ => none
      | none => (decVec decodeCandle j).bind fun x => decodeTickersDataFields rest s e (some x) p
    else if k = "precision" then
      match p with
      | some _ => none
      | none => (decI32 j).bind fun x => decodeTickersDataFields rest s e c (some x)
    else decodeTickersDataFields rest s e c p

/-- Derived Deserialize for TickersData. -/
def decodeTickersData : Json → Option TickersData
  | Json.obj fields => decodeTickersDataFields fields none none none none
  | _ => none

/-- Field loop of the derived Deserialize for FunctionArgs: unknown fields are
skipped, duplicates rejected, and every one of the three mappings must be
present when the object ends (none of the fields carries a serde default). -/
def decodeFunctionArgsFields : List (String × Json) →
    Option (List (String × TickersData)) → Option (List (String × String)) →
    Option (List (String × Json)) → Option FunctionArgs
  | [], some t, some p, some c => some ⟨t, p, c⟩
  | [], _, _, _ => none
  | (k, j) :: rest, t, p, c =>
    if k = "tickers_data" then
      match t with
      | some _ => none
      | none => (decodeMap decodeTickersData j).bind fun x =>
          decodeFunctionArgsFields rest (some x) p c
    else if k = "piped_data" then
      match p with
      | some _ => none
      | none => (decodeMap decString j).bind fun x =>
          decodeFunctionArgsFields rest t (some x) c
    else if k = "call_arguments" then
      match c with
      | some _ => none
      | none => (decodeMap decValue j).bind fun x =>
          decodeFunctionArgsFields rest t p (some x)
    else decodeFunctionArgsFields rest t p c

/-- FromBytesOwned::from_bytes_owned for FunctionArgs, after the byte payload
has been parsed into a JSON value: the derived Deserialize for the struct. -/
def decodeFunctionArgs : Json → Option FunctionArgs
  | Json.obj fields => decodeFunctionArgsFields fields none none none
  | _ => none

/-- The thread of one known struct field through an object's entry list, as the
derived field loop treats it: the accumulator holds the value seen so far, a
second occurrence of the field is an error, an occurrence decodes its value
with dec, entries named otherwise are skipped, and a field never seen leaves
the accumulator empty (missing). -/
def fieldOutcome (key : String) (dec : Json → Option α) :
    List (String × Json) → Option α → Option α
  | [], acc => acc
  | (k, j) :: rest, acc =>
    if k = key then
      match acc with
      | some _ => none
      | none => (dec j).bind fun x => fieldOutcome key dec rest (some x)
    else fieldOutcome key dec rest acc

/-! Concrete fixtures, following the repository's unit-test fixture
create_test_function_args (fin_data.rs lines 173-217). -/

/-- The call-argument fixture of the unit tests (the 3.14 float is idealised as
the exact rational 314/100). -/
def exampleArgs : FunctionArgs :=
  ⟨[], [],
   [("string_arg", Json.str "hello world"),
    ("int_arg", Json.num (JNum.int 42)),
    ("float_arg", Json.num (JNum.float (314 / 100))),
    ("bool_arg", Json.bool true),
    ("object_arg", Json.obj [("name", Json.str "test"), ("value", Json.num (JNum.int 100))]),
    ("array_arg", Json.arr [Json.num (JNum.int 1), Json.num (JNum.int 2), Json.num (JNum.int 3),
       Json.num (JNum.int 4), Json.num (JNum.int 5)]),
    ("num_str_arg", Json.str "12345"),
    ("bool_str_arg", Json.str "true"),
    ("bool_str_arg_f", Json.str "false"),
    ("invalid_num_str_arg", Json.str "not_a_number"),
    ("array_str_arg", Json.str "[1, 2, 3]"),
    ("non_existent_arg", Json.null),
    ("quoted_str_arg", Json.str "\"x\"")]⟩

/-- A candle whose every price field is 12345.678 (spec §8 scenario 5). -/
def exampleCandle : Candle ℚ :=
  ⟨12345678 / 1000, 12345678 / 1000, 12345678 / 1000, 12345678 / 1000, 0⟩

/-- The BTCUSD ticker of spec §8 scenario 5: precision 2, one candle. -/
def exampleTicker : TickersData :=
  ⟨"BTCUSD", "BINANCE", [exampleCandle], 2⟩

/-- A payload holding only the BTCUSD ticker. -/
def exampleFA : FunctionArgs :=
  ⟨[("BTCUSD", exampleTicker)], [], []⟩

/-- The empty payload. -/
def emptyFA : FunctionArgs :=
  ⟨[], [], []⟩

/-- C1 counterexample: the claim says a key present but mapped to JSON null
fails with the ArgumentNotFound code 4 for a non-nullable target; on the code,
the test fixture's null-valued key requested as a String fails with the Stage A
coercion code 5, not 4. -/
theorem c1_null_key_gets_code5 :
    errCode (exampleArgs.get_call_argument decString "non_existent_arg") = some 5 ∧
    (5 : Int) ≠ 4 := by
  exact ⟨rfl, by decide⟩

/-- C1 amended: for a target type that cannot represent null (its from_value
decoder fails on null), an absent key fails with code 4 (ArgumentNotFound),
while a key present but mapped to JSON null fails with the Stage A
direct-decode error, code 5, not code 4. -/
theorem get_call_argument_null_vs_absent (dec : Json → Option T)
    (fa : FunctionArgs) (key : String) (hnull : dec Json.null = none) :
    (hmGet fa.call_arguments key = none →
      fa.get_call_argument dec key =
        Except.error ⟨4, "Call argument " ++ key ++ " not found"⟩) ∧
    (hmGet fa.call_arguments key = some Json.null →
      fa.get_call_argument dec key =
        Except.error ⟨5, "Failed to parse call argument " ++ key⟩) := by
  constructor
  · intro h
    simp only [FunctionArgs.get_call_argument, h]
  · intro h
    simp only [FunctionArgs.get_call_argument, h, hnull, Json.as_str]

/-- C1 witness: instantiating the amended statement on the test fixture. -/
theorem get_call_argument_null_vs_absent_witness :
    errCode (exampleArgs.get_call_argument decString "really_absent_key") = some 4 ∧
    errCode (exampleArgs.get_call_argument decString "non_existent_arg") = some 5 := by
  have h := get_call_argument_null_vs_absent decString exampleArgs "really_absent_key" rfl
  have h2 := get_call_argument_null_vs_absent decString exampleArgs "non_existent_arg" rfl
  rw [h.1 rfl, h2.2 rfl]
  exact ⟨rfl, rfl⟩

/-- C2: whenever Stage A (direct decode) fails on a present argument, the
returned error is the Stage A error (code 5) — both when the stored value is
not textual and when it is textual but Stage B also fails; the Stage B error
(code 6) is never returned. -/
theorem stage_a_error_surfaced (dec : Json → Option T) (fa : FunctionArgs)
    (key : String) (arg : Json)
    (hget : hmGet fa.call_arguments key = some arg)
    (hA : dec arg = none)
    (hB : ∀ s, arg = Json.str s → from_str dec s = none) :
    fa.get_call_argument dec key =
      Except.error ⟨5, "Failed to parse call argument " ++ key⟩ := by
  simp only [FunctionArgs.get_call_argument, hget, hA]
  cases arg with
  | str s => simp only [Json.as_str, hB s rfl]
  | null => rfl
  | bool b => rfl
  | num n => rfl
  | arr xs => rfl
  | obj fields => rfl

/-- C2 witness: a textual argument that is not valid JSON, requested as i32,
fails with the Stage A code 5 (test fixture key invalid_num_str_arg). -/
theorem stage_a_error_surfaced_witness :
    errCode (exampleArgs.get_call_argument decI32 "invalid_num_str_arg") = some 5 := by
  rw [stage_a_error_surfaced decI32 exampleArgs "invalid_num_str_arg"
    (Json.str "not_a_number") rfl rfl (fun s hs => by cases hs; rfl)]
  rfl

/-- C3: a present argument whose stored value is non-textual and decodes
directly as the requested type is returned exactly as Stage A decodes it. -/
theorem stage_a_identity (dec : Json → Option T) (fa : FunctionArgs)
    (key : String) (arg : Json) (v : T)
    (hget : hmGet fa.call_arguments key = some arg)
    (_hnotstr : arg.as_str = none)
    (hA : dec arg = some v) :
    fa.get_call_argument dec key = Except.ok v := by
  simp only [FunctionArgs.get_call_argument, hget, hA]

/-- C3 witness: the native number 42 requested as i32 yields 42. -/
theorem stage_a_identity_witness :
    exampleArgs.get_call_argument decI32 "int_arg" = Except.ok 42 :=
  stage_a_identity decI32 exampleArgs "int_arg" (Json.num (JNum.int 42)) 42 rfl rfl
    (by decide)

/-- C4 counterexample: the claim quantifies over all target types including
plain string; for the textual argument whose text is the JSON string literal
of x (quote x quote), parsing the text directly as a string yields x, but
get_call_argument returns the raw text itself via Stage A. -/
theorem c4_string_target_not_reparsed :
    exampleArgs.get_call_argument decString "quoted_str_arg" = Except.ok "\"x\"" ∧
    from_str decString "\"x\"" = some "x" ∧
    ("\"x\"" : String) ≠ "x" := by
  refine ⟨rfl, rfl, by decide⟩

/-- C4 amended: for a textual argument whose text parses as valid JSON of the
requested type, get_call_argument agrees with parsing the text directly
whenever Stage A direct decode fails (in particular for every non-string
target); for a plain-string target Stage A succeeds and the raw text itself is
returned instead. -/
theorem stage_b_equivalence (dec : Json → Option T) (fa : FunctionArgs)
    (key : String) (s : String) (v : T)
    (hget : hmGet fa.call_arguments key = some (Json.str s))
    (hA : dec (Json.str s) = none)
    (hB : from_str dec s = some v) :
    fa.get_call_argument dec key = Except.ok v := by
  simp only [FunctionArgs.get_call_argument, hget, hA, Json.as_str, hB]

/-- C4 witness: the textual argument 12345 requested as i32 yields the integer
12345, equal to parsing the text directly. -/
theorem stage_b_equivalence_witness :
    exampleArgs.get_call_argument decI32 "num_str_arg" = Except.ok 12345 :=
  stage_b_equivalence decI32 exampleArgs "num_str_arg" "12345" 12345 rfl rfl rfl

/-- Entries named otherwise do not touch a field's thread. -/
lemma fieldOutcome_cons_ne (key k : String) (j : Json) (dec : Json → Option α)
    (rest : List (String × Json)) (acc : Option α) (h : k ≠ key) :
    fieldOutcome key dec ((k, j) :: rest) acc = fieldOutcome key dec rest acc := by
  simp [fieldOutcome, h]

/-- A field after which no entry is named resolves to its accumulator. -/
lemma fieldOutcome_of_filter_nil (key : String) (dec : Json → Option α)
    (entries : List (String × Json)) (acc : Option α)
    (h : entries.filter (fun kv => kv.1 == key) = []) :
    fieldOutcome key dec entries acc = acc := by
  induction entries generalizing acc with
  | nil => rfl
  | cons kv rest ih =>
    obtain ⟨k, j⟩ := kv
    rw [List.filter_cons] at h
    by_cases hk : k = key
    · simp [hk] at h
    · rw [fieldOutcome_cons_ne key k j dec rest acc hk]
      apply ih
      simpa [hk] using h

/-- A field whose single entry decodes resolves to the decoded value,
whatever the other entries around it are named. -/
lemma fieldOutcome_of_filter_singleton (key : String) (dec : Json → Option α)
    (entries : List (String × Json)) (j : Json) (v : α)
    (hfil : entries.filter (fun kv => kv.1 == key) = [(key, j)])
    (hdec : dec j = some v) :
    fieldOutcome key dec entries none = some v := by
  induction entries with
  | nil => simp at hfil
  | cons kv rest ih =>
    obtain ⟨k, e⟩ := kv
    rw [List.filter_cons] at hfil
    by_cases hk : k = key
    · rw [if_pos (show ((k, e).1 == key) = true by simp [hk])] at hfil
      injection hfil with h1 h2
      have he : e = j := congrArg Prod.snd h1
      simp only [fieldOutcome]
      rw [if_pos hk, he, hdec]
      simp only [Option.some_bind]
      exact fieldOutcome_of_filter_nil key dec rest (some v) h2
    · rw [fieldOutcome_cons_ne key k e dec rest none hk]
      apply ih
      simpa [hk] using hfil

/-- The field loop of the derived FunctionArgs Deserialize resolves the three
known fields independently: it succeeds exactly when every one of the three
threads resolves, with the struct of their values. -/
lemma decodeFAFields_by_fieldOutcomes (entries : List (String × Json))
    (ta : Option (List (String × TickersData))) (pa : Option (List (String × String)))
    (ca : Option (List (String × Json))) :
    decodeFunctionArgsFields entries ta pa ca =
      (fieldOutcome "tickers_data" (decodeMap decodeTickersData) entries ta).bind fun t =>
      (fieldOutcome "piped_data" (decodeMap decString) entries pa).bind fun p =>
      (fieldOutcome "call_arguments" (decodeMap decValue) entries ca).map fun c =>
      (⟨t, p, c⟩ : FunctionArgs) := by
  induction entries generalizing ta pa ca with
  | nil => cases ta <;> cases pa <;> cases ca <;> rfl
  | cons kv rest ih =>
    obtain ⟨k, j⟩ := kv
    by_cases ht : k = "tickers_data"
    · subst ht
      cases ta with
      | some t0 => simp [decodeFunctionArgsFields, fieldOutcome]
      | none =>
        cases hdm : decodeMap decodeTickersData j with
        | none => simp [decodeFunctionArgsFields, fieldOutcome, hdm]
        | some x => simp [decodeFunctionArgsFields, fieldOutcome, hdm, ih]
    · by_cases hp : k = "piped_data"
      · subst hp
        cases pa with
        | some p0 => simp [decodeFunctionArgsFields, fieldOutcome, ht]
        | none =>
          cases hdm : decodeMap decString j with
          | none => simp [decodeFunctionArgsFields, fieldOutcome, ht, hdm]
          | some x => simp [decodeFunctionArgsFields, fieldOutcome, ht, hdm, ih]
      · by_cases hc : k = "call_arguments"
        · subst hc
          cases ca with
          | some c0 => simp [decodeFunctionArgsFields, fieldOutcome, ht, hp]
          | none =>
            cases hdm : decodeMap decValue j with
            | none => simp [decodeFunctionArgsFields, fieldOutcome, ht, hp, hdm]
            | some x => simp [decodeFunctionArgsFields, fieldOutcome, ht, hp, hdm, ih]
        · simp [decodeFunctionArgsFields, fieldOutcome, ht, hp, hc, ih]

/-- C5 counterexample: the claim says a payload missing one or more of the
three top-level mappings still deserializes (missing maps becoming empty); on
the code the empty JSON object fails to deserialize, because no field of
FunctionArgs carries a serde default. -/
theorem c5_empty_payload_fails :
    decodeFunctionArgs (Json.obj []) = none := rfl

/-- C5 amended: a payload missing any of the three mappings (no entry carries
its name) fails to deserialize, whichever of the three it is; and unknown
extra fields are ignored: any payload carrying each of the three mappings
exactly once with decodable values, with arbitrary other entries anywhere
around them, deserializes to exactly the three decoded maps. -/
theorem payload_missing_fails_extra_ignored :
    (∀ entries : List (String × Json),
      (entries.filter (fun kv => kv.1 == "tickers_data") = [] ∨
       entries.filter (fun kv => kv.1 == "piped_data") = [] ∨
       entries.filter (fun kv => kv.1 == "call_arguments") = []) →
      decodeFunctionArgs (Json.obj entries) = none) ∧
    (∀ (entries : List (String × Json)) (jt jp jc : Json)
       (t : List (String × TickersData)) (p : List (String × String))
       (c : List (String × Json)),
      entries.filter (fun kv => kv.1 == "tickers_data") = [("tickers_data", jt)] →
      entries.filter (fun kv => kv.1 == "piped_data") = [("piped_data", jp)] →
      entries.filter (fun kv => kv.1 == "call_arguments") = [("call_arguments", jc)] →
      decodeMap decodeTickersData jt = some t →
      decodeMap decString jp = some p →
      decodeMap decValue jc = some c →
      decodeFunctionArgs (Json.obj entries) = some ⟨t, p, c⟩) := by
  constructor
  · intro entries h
    simp only [decodeFunctionArgs]
    rw [decodeFAFields_by_fieldOutcomes]
    rcases h with h | h | h
    · rw [fieldOutcome_of_filter_nil "tickers_data" (decodeMap decodeTickersData) entries none h]
      rfl
    · simp only [fieldOutcome_of_filter_nil "piped_data" (decodeMap decString) entries none h]
      cases fieldOutcome "tickers_data" (decodeMap decodeTickersData) entries none <;> rfl
    · simp only [fieldOutcome_of_filter_nil "call_arguments" (decodeMap decValue) entries none h]
      cases fieldOutcome "tickers_data" (decodeMap decodeTickersData) entries none <;>
        cases fieldOutcome "piped_data" (decodeMap decString) entries none <;> rfl
  · intro entries jt jp jc t p c hft hfp hfc hdt hdp hdc
    simp only [decodeFunctionArgs]
    rw [decodeFAFields_by_fieldOutcomes]
    simp only
      [fieldOutcome_of_filter_singleton "tickers_data" (decodeMap decodeTickersData) entries jt t hft hdt,
       fieldOutcome_of_filter_singleton "piped_data" (decodeMap decString) entries jp p hfp hdp,
       fieldOutcome_of_filter_singleton "call_arguments" (decodeMap decValue) entries jc c hfc hdc]
    rfl

/-- C5 witness: a payload holding only piped_data and call_arguments fails;
a payload holding all three mappings, in shuffled order with unknown entries
interleaved, decodes to the three (empty) maps. -/
theorem payload_missing_fails_witness :
    decodeFunctionArgs (Json.obj
      [("piped_data", Json.obj []), ("call_arguments", Json.obj [])]) = none ∧
    decodeFunctionArgs (Json.obj
      [("extra_a", Json.null), ("call_arguments", Json.obj []),
       ("tickers_data", Json.obj []), ("extra_b", Json.bool true),
       ("piped_data", Json.obj [])]) = some ⟨[], [], []⟩ :=
  ⟨payload_missing_fails_extra_ignored.1 _ (Or.inl rfl),
   payload_missing_fails_extra_ignored.2 _ (Json.obj []) (Json.obj []) (Json.obj [])
     [] [] [] rfl rfl rfl rfl rfl rfl⟩

/-- C6: the decimal accessors fail exactly when the label is absent from
tickers_data, and then with the TickerNotFound error (code 3); when the label
is present they return the converted series — the conversion itself is a total
function and never fails. -/
theorem get_candles_decimal_fails_iff_absent (fa : FunctionArgs) (label : String) :
    (hmGet fa.tickers_data label = none →
      fa.get_candles_decimal label =
        Except.error ⟨3, "Ticker " ++ label ++ " not found"⟩ ∧
      fa.get_candles_decimal_iter label =
        Except.error ⟨3, "Ticker " ++ label ++ " not found"⟩) ∧
    (∀ td, hmGet fa.tickers_data label = some td →
      fa.get_candles_decimal label =
        Except.ok (td.candles.map fun c => c.to_decimal td.precision) ∧
      fa.get_candles_decimal_iter label =
        Except.ok (td.candles.map fun c => c.to_decimal td.precision)) := by
  constructor
  · intro h
    constructor
    · simp [FunctionArgs.get_candles_decimal, FunctionArgs.get_candles_decimal_iter,
        FunctionArgs.get_ticker, h]
    · simp [FunctionArgs.get_candles_decimal_iter, FunctionArgs.get_ticker, h]
  · intro td h
    constructor
    · simp [FunctionArgs.get_candles_decimal, FunctionArgs.get_candles_decimal_iter,
        FunctionArgs.get_ticker, TickersData.get_candles_decimal_iter, h]
    · simp [FunctionArgs.get_candles_decimal_iter, FunctionArgs.get_ticker,
        TickersData.get_candles_decimal_iter, h]

/-- C6 witness: on the one-ticker payload, the absent label ZZZ fails with
code 3 and the present label BTCUSD yields the converted series. -/
theorem get_candles_decimal_fails_iff_absent_witness :
    errCode (exampleFA.get_candles_decimal "ZZZ") = some 3 ∧
    exampleFA.get_candles_decimal "BTCUSD" =
      Except.ok (exampleTicker.candles.map fun c => c.to_decimal exampleTicker.precision) := by
  have h1 := (get_candles_decimal_fails_iff_absent exampleFA "ZZZ").1 rfl
  have h2 := (get_candles_decimal_fails_iff_absent exampleFA "BTCUSD").2 exampleTicker rfl
  exact ⟨by rw [h1.1]; rfl, h2.1⟩

/-- C7: the decimal candle view has exactly one element per stored candle, in
the stored order, and every element is the conversion of the corresponding
stored candle at this series' own precision. -/
theorem decimal_view_pointwise (td : TickersData) :
    td.get_candles_decimal.length = td.candles.length ∧
    ∀ i : Nat, td.get_candles_decimal.get? i =
      (td.candles.get? i).map fun c => c.to_decimal td.precision := by
  constructor
  · simp [TickersData.get_candles_decimal, TickersData.get_candles_decimal_iter]
  · intro i
    simp [TickersData.get_candles_decimal, TickersData.get_candles_decimal_iter]

/-- C7 witness: instantiating the pointwise description on the BTCUSD ticker. -/
theorem decimal_view_pointwise_witness :
    exampleTicker.get_candles_decimal.length = exampleTicker.candles.length ∧
    exampleTicker.get_candles_decimal.get? 0 =
      (exampleTicker.candles.get? 0).map fun c => c.to_decimal exampleTicker.precision :=
  ⟨(decimal_view_pointwise exampleTicker).1, (decimal_view_pointwise exampleTicker).2 0⟩

/-- C8: the float-to-decimal conversion rounds half away from zero at the
precision-th fractional digit: the close 12345.678 at precision 2 becomes the
decimal 12345.68 (mantissa 1234568, scale 2, denoting 1234568/100), and the
tie cases 0.125 and -0.125 at precision 2 round away from zero to 0.13
and -0.13. -/
theorem close_rounds_half_away :
    (exampleCandle.to_decimal 2).closePrice = ⟨1234568, 2⟩ ∧
    Decimal.toRat ⟨1234568, 2⟩ = 1234568 / 100 ∧
    Decimal.ofRat (125 / 1000) 2 = ⟨13, 2⟩ ∧
    Decimal.ofRat (-(125 / 1000)) 2 = ⟨-13, 2⟩ := by
  refine ⟨?_, ?_, ?_, ?_⟩
  · simp only [exampleCandle, Candle.to_decimal, Decimal.ofRat, roundHalfAway,
      Decimal.mk.injEq, show Int.toNat 2 = 2 from rfl]
    norm_num
  · simp only [Decimal.toRat]
    norm_num
  · simp only [Decimal.ofRat, roundHalfAway, Decimal.mk.injEq]
    norm_num
  · simp only [Decimal.ofRat, roundHalfAway, Decimal.mk.injEq]
    norm_num

/-- C9 counterexample: the claim says every accessor failing on an absent
ticker label surfaces one same TickerNotFound code; on the code get_candles
fails with code 1 while get_ticker fails with code 3. -/
theorem c9_two_codes_for_absent_ticker :
    errCode (emptyFA.get_candles "ZZZ") = some 1 ∧
    errCode (emptyFA.get_ticker "ZZZ") = some 3 ∧
    (1 : Int) ≠ 3 :=
  ⟨rfl, rfl, by decide⟩

/-- C9 amended: absent-ticker failures carry code 1 from get_candles and
get_candles_iter but code 3 from get_ticker, get_candles_decimal and
get_candles_decimal_iter; absent pipe sources carry code 2 and absent call
arguments code 4 — the codes of the four failure kinds (1, 2, 3, 4, and 5 for
coercion failure) are pairwise distinct, but TickerNotFound is split across
the two codes 1 and 3 rather than carrying a single one. -/
theorem error_codes_by_accessor (dec : Json → Option T) (fa : FunctionArgs)
    (label source key : String)
    (ht : hmGet fa.tickers_data label = none)
    (hp : hmGet fa.piped_data source = none)
    (hk : hmGet fa.call_arguments key = none) :
    errCode (fa.get_candles label) = some 1 ∧
    errCode (fa.get_candles_iter label) = some 1 ∧
    errCode (fa.get_ticker label) = some 3 ∧
    errCode (fa.get_candles_decimal label) = some 3 ∧
    errCode (fa.get_candles_decimal_iter label) = some 3 ∧
    errCode (fa.get_data_from_pipe source) = some 2 ∧
    errCode (fa.get_call_argument dec key) = some 4 := by
  simp only [FunctionArgs.get_candles, FunctionArgs.get_candles_iter,
    FunctionArgs.get_ticker, FunctionArgs.get_candles_decimal,
    FunctionArgs.get_candles_decimal_iter, FunctionArgs.get_data_from_pipe,
    FunctionArgs.get_call_argument, ht, hp, hk]
  exact ⟨rfl, rfl, rfl, rfl, rfl, rfl, rfl⟩

/-- C9 witness: instantiating the per-accessor codes on the empty payload. -/
theorem error_codes_by_accessor_witness :
    errCode (emptyFA.get_candles "ZZZ") = some 1 ∧
    errCode (emptyFA.get_candles_iter "ZZZ") = some 1 ∧
    errCode (emptyFA.get_ticker "ZZZ") = some 3 ∧
    errCode (emptyFA.get_candles_decimal "ZZZ") = some 3 ∧
    errCode (emptyFA.get_candles_decimal_iter "ZZZ") = some 3 ∧
    errCode (emptyFA.get_data_from_pipe "src") = some 2 ∧
    errCode (emptyFA.get_call_argument decString "key") = some 4 :=
  error_codes_by_accessor decString emptyFA "ZZZ" "src" "key" rfl rfl rfl

/-- C10: a key present with the JSON null value succeeds through the Stage A
direct decode whenever the requested type can represent null, returning that
type's null representation. -/
theorem null_ok_for_nullable_target (dec : Json → Option T) (fa : FunctionArgs)
    (key : String) (v : T)
    (hget : hmGet fa.call_arguments key = some Json.null)
    (hA : dec Json.null = some v) :
    fa.get_call_argument dec key = Except.ok v := by
  simp only [FunctionArgs.get_call_argument, hget, hA]

/-- C10 witness: the null-valued key requested as serde_json::Value yields
null, and requested as Option of i32 yields none. -/
theorem null_ok_for_nullable_target_witness :
    exampleArgs.get_call_argument decValue "non_existent_arg" = Except.ok Json.null ∧
    exampleArgs.get_call_argument (decOption decI32) "non_existent_arg" = Except.ok none :=
  ⟨null_ok_for_nullable_target decValue exampleArgs "non_existent_arg" Json.null rfl rfl,
   null_ok_for_nullable_target (decOption decI32) exampleArgs "non_existent_arg" none rfl rfl⟩
